import Mathlib

/-!
Shallow embedding of the Zolory bot ledger (`src/database.py`) and proofs
about its economy and moderation operations.

Modelling conventions:
- SQLite integer columns are `Int` (SQLite integers are signed and the code
  performs no range validation).
- Timestamps are `Int` seconds since an arbitrary epoch.  The code stores
  ISO-8601 UTC strings and compares them either lexicographically (in SQL)
  or after parsing (in Python); both orders agree with the numeric order of
  the underlying instants, so `Int` comparison is faithful.  `timedelta`
  arithmetic becomes integer arithmetic: 1 day = 86400 s, 1 minute = 60 s,
  `timedelta(days=365*100)` = 36500 * 86400 s.
- A table is a `List` of row structures in rowid (insertion) order; a SQL
  `SELECT ... fetchone()` without ORDER BY is `List.find?` (first row in
  storage order), `UPDATE ... WHERE` is a `List.map` that rewrites every
  matching row, and `INSERT` appends.  `INSERT OR IGNORE` under the
  `UNIQUE(user_id, server_id)` constraint appends only when no row with
  that key exists.
- Each Python method that mutates the store becomes a function from the
  relevant table(s) (plus the current time where the code calls
  `datetime.utcnow()`) to the updated table(s) and the returned value.
  Read-only methods return a value and no table, mirroring the absence of
  any UPDATE/INSERT in the code.
-/

namespace Zolory

/-- Row of the `user_balance` table / the `UserBalance` dataclass.
Default column values follow the CREATE TABLE defaults (which coincide
with the dataclass defaults). -/
structure UserBalance where
  user_id : Int
  server_id : Int
  coins : Int := 0
  gems : Int := 0
  daily_streak : Int := 0
  last_daily : Int
  total_earned : Int := 0
  total_spent : Int := 0
  bank_balance : Int := 0
  deriving Repr, DecidableEq

/-- The `WHERE user_id = ? AND server_id = ?` filter on `user_balance`. -/
def balKey (u s : Int) (b : UserBalance) : Bool :=
  b.user_id == u && b.server_id == s

/-- `SELECT ... FROM user_balance WHERE user_id = ? AND server_id = ?`,
`fetchone()`: first matching row in storage order. -/
def findBalance (tbl : List UserBalance) (u s : Int) : Option UserBalance :=
  tbl.find? (balKey u s)

/-- `UPDATE user_balance SET ... WHERE user_id = ? AND server_id = ?`:
rewrite every matching row. -/
def updateBalance (tbl : List UserBalance) (u s : Int)
    (f : UserBalance → UserBalance) : List UserBalance :=
  tbl.map (fun b => if balKey u s b then f b else b)

/-- The row inserted by
`INSERT OR IGNORE INTO user_balance (user_id, server_id, last_daily)`:
all other columns take their table defaults. -/
def freshBalance (u s ld : Int) : UserBalance :=
  { user_id := u, server_id := s, last_daily := ld }

/-- `INSERT OR IGNORE INTO user_balance (user_id, server_id, last_daily)`
under the `UNIQUE(user_id, server_id)` constraint. -/
def insertOrIgnoreBalance (tbl : List UserBalance) (u s ld : Int) :
    List UserBalance :=
  if (findBalance tbl u s).isSome then tbl else tbl ++ [freshBalance u s ld]

/-- `DatabaseManager.create_user_balance`: builds a `UserBalance` dataclass
whose `last_daily` defaults to now minus one day, inserts-or-ignores the
`(user_id, server_id, last_daily)` triple, and returns the dataclass. -/
def create_user_balance (tbl : List UserBalance) (u s now : Int) :
    UserBalance × List UserBalance :=
  let balance := freshBalance u s (now - 86400)
  (balance, insertOrIgnoreBalance tbl u s (now - 86400))

/-- `DatabaseManager.add_coins`: ensure the balance row exists (the ignored
insert uses `last_daily = utcnow() - 1 day`), then
`SET coins = coins + ?, total_earned = total_earned + ?`. -/
def add_coins (tbl : List UserBalance) (u s amount now : Int) :
    List UserBalance :=
  updateBalance (insertOrIgnoreBalance tbl u s (now - 86400)) u s
    (fun b => { b with coins := b.coins + amount,
                       total_earned := b.total_earned + amount })

/-- `DatabaseManager.remove_coins`: fetch the row; if absent or
`coins < amount` return `False` without writing; otherwise
`SET coins = coins - ?, total_spent = total_spent + ?` and return `True`. -/
def remove_coins (tbl : List UserBalance) (u s amount : Int) :
    Bool × List UserBalance :=
  match findBalance tbl u s with
  | none => (false, tbl)
  | some b =>
    if b.coins < amount then (false, tbl)
    else (true, updateBalance tbl u s
      (fun b => { b with coins := b.coins - amount,
                         total_spent := b.total_spent + amount }))

/-- `DatabaseManager.add_gems`: ensure the balance row exists, then
`SET gems = gems + ?` (and nothing else). -/
def add_gems (tbl : List UserBalance) (u s amount now : Int) :
    List UserBalance :=
  updateBalance (insertOrIgnoreBalance tbl u s (now - 86400)) u s
    (fun b => { b with gems := b.gems + amount })

/-- `DatabaseManager.remove_gems`: fetch the row; if absent or
`gems < amount` return `False` without writing; otherwise
`SET gems = gems - ?` (and nothing else) and return `True`. -/
def remove_gems (tbl : List UserBalance) (u s amount : Int) :
    Bool × List UserBalance :=
  match findBalance tbl u s with
  | none => (false, tbl)
  | some b =>
    if b.gems < amount then (false, tbl)
    else (true, updateBalance tbl u s
      (fun b => { b with gems := b.gems - amount }))

/-- `DatabaseManager.claim_daily_reward`: fetch `last_daily, daily_streak`;
reject if the row is absent or under 24 h (86400 s) elapsed; streak
increments under 48 h (172800 s) elapsed, else resets to 1; on success
`SET coins = coins + ?, last_daily = now, daily_streak = ?,
total_earned = total_earned + ?`. -/
def claim_daily_reward (tbl : List UserBalance) (u s reward now : Int) :
    (Bool × Int) × List UserBalance :=
  match findBalance tbl u s with
  | none => ((false, 0), tbl)
  | some b =>
    if now - b.last_daily < 86400 then ((false, b.daily_streak), tbl)
    else
      let new_streak := if now - b.last_daily < 172800 then b.daily_streak + 1 else 1
      ((true, new_streak),
        updateBalance tbl u s
          (fun b => { b with coins := b.coins + reward, last_daily := now,
                             daily_streak := new_streak,
                             total_earned := b.total_earned + reward }))

/-- Row of the `users` table / the `User` dataclass. -/
structure User where
  user_id : Int
  username : String
  coins : Int := 0
  gems : Int := 0
  level : Int := 1
  experience : Int := 0
  total_messages : Int := 0
  join_date : Int
  last_activity : Int
  reputation : Int := 0
  deriving Repr, DecidableEq

/-- The `User` dataclass as `create_user` constructs it: given id and
username, both timestamps set to now, every other field at its default
(which coincides with the table defaults used by the insert). -/
def freshUser (uid : Int) (uname : String) (now : Int) : User :=
  { user_id := uid, username := uname, join_date := now, last_activity := now }

/-- `DatabaseManager.create_user`: build a fresh `User` dataclass,
`INSERT OR IGNORE` it (primary key `user_id`), and return the fresh
dataclass — regardless of whether the insert was ignored. -/
def create_user (tbl : List User) (uid : Int) (uname : String) (now : Int) :
    User × List User :=
  let user := freshUser uid uname now
  if (tbl.find? (fun r => r.user_id == uid)).isSome then (user, tbl)
  else (user, tbl ++ [user])

/-- Row of the `mutes` table.  `duration` is a required argument of
`mute_user`, hence never NULL here. -/
structure MuteRow where
  server_id : Int
  user_id : Int
  moderator_id : Int
  reason : String
  duration : Int
  mute_time : Int
  expire_time : Int
  active : Bool := true
  deriving Repr, DecidableEq

/-- Row of the `bans` table.  `duration` is `Optional[int]` in `ban_user`. -/
structure BanRow where
  server_id : Int
  user_id : Int
  moderator_id : Int
  reason : String
  duration : Option Int
  ban_time : Int
  expire_time : Int
  active : Bool := true
  deriving Repr, DecidableEq

/-- Row of the `moderation_records` audit table. -/
structure ModerationRecord where
  server_id : Int
  user_id : Int
  moderator_id : Int
  action_type : String
  reason : String
  duration : Option Int := none
  timestamp : Int
  deriving Repr, DecidableEq

/-- `DatabaseManager.mute_user`: `expire_time = now + timedelta(minutes=duration)`
unconditionally (there is no permanent-mute branch); appends the mute row
and a `"mute"` audit row. -/
def mute_user (mutes : List MuteRow) (mods : List ModerationRecord)
    (s u m : Int) (reason : String) (duration now : Int) :
    List MuteRow × List ModerationRecord :=
  let expire := now + duration * 60
  (mutes ++ [{ server_id := s, user_id := u, moderator_id := m,
               reason := reason, duration := duration,
               mute_time := now, expire_time := expire }],
   mods ++ [{ server_id := s, user_id := u, moderator_id := m,
              action_type := "mute", reason := reason,
              duration := some duration, timestamp := now }])

/-- `DatabaseManager.ban_user`: the Python guard is `if duration:`, which is
false for both `None` and `0`, so a zero duration yields the permanent
expiry `now + timedelta(days=365*100)`; appends the ban row and a `"ban"`
audit row. -/
def ban_user (bans : List BanRow) (mods : List ModerationRecord)
    (s u m : Int) (reason : String) (duration : Option Int) (now : Int) :
    List BanRow × List ModerationRecord :=
  let expire := match duration with
    | some d => if d == 0 then now + 36500 * 86400 else now + d * 60
    | none => now + 36500 * 86400
  (bans ++ [{ server_id := s, user_id := u, moderator_id := m,
              reason := reason, duration := duration,
              ban_time := now, expire_time := expire }],
   mods ++ [{ server_id := s, user_id := u, moderator_id := m,
              action_type := "ban", reason := reason,
              duration := duration, timestamp := now }])

/-- The `WHERE server_id = ? AND user_id = ? AND active = 1` filter on
`mutes`. -/
def muteKey (s u : Int) (r : MuteRow) : Bool :=
  r.server_id == s && r.user_id == u && r.active

/-- The same filter on `bans`. -/
def banKey (s u : Int) (r : BanRow) : Bool :=
  r.server_id == s && r.user_id == u && r.active

/-- `DatabaseManager.is_user_muted`: `fetchone()` on the active-rows filter,
then `False` when `utcnow() > expire_time`, else `True`.  The method runs
no UPDATE/INSERT, which the embedding mirrors by returning only a `Bool`. -/
def is_user_muted (mutes : List MuteRow) (s u now : Int) : Bool :=
  match mutes.find? (muteKey s u) with
  | none => false
  | some r => if now > r.expire_time then false else true

/-- `DatabaseManager.is_user_banned`: same shape as `is_user_muted`. -/
def is_user_banned (bans : List BanRow) (s u now : Int) : Bool :=
  match bans.find? (banKey s u) with
  | none => false
  | some r => if now > r.expire_time then false else true

/-- `DatabaseManager.cleanup_expired_mutes`:
`UPDATE mutes SET active = 0 WHERE expire_time < now AND active = 1`. -/
def cleanup_expired_mutes (mutes : List MuteRow) (now : Int) : List MuteRow :=
  mutes.map (fun r => if r.expire_time < now && r.active
    then { r with active := false } else r)

/-- `DatabaseManager.cleanup_expired_bans`:
`UPDATE bans SET active = 0 WHERE expire_time < now AND active = 1`. -/
def cleanup_expired_bans (bans : List BanRow) (now : Int) : List BanRow :=
  bans.map (fun r => if r.expire_time < now && r.active
    then { r with active := false } else r)

/-- One client call in a sequence of economy operations on a fixed
(user, server) pair: `add_coins`, `add_gems`, `remove_coins` or
`remove_gems` with the given amount. -/
inductive EconOp where
  | addCoins (amount : Int)
  | addGems (amount : Int)
  | removeCoins (amount : Int)
  | removeGems (amount : Int)
  deriving Repr, DecidableEq

/-- Bookkeeping for a run of economy operations: amounts added per
currency, and amounts whose removal returned success. -/
structure Totals where
  coinsAdded : Int := 0
  coinsSpent : Int := 0
  gemsAdded : Int := 0
  gemsSpent : Int := 0
  deriving Repr, DecidableEq

def Totals.join (t1 t2 : Totals) : Totals :=
  { coinsAdded := t1.coinsAdded + t2.coinsAdded,
    coinsSpent := t1.coinsSpent + t2.coinsSpent,
    gemsAdded := t1.gemsAdded + t2.gemsAdded,
    gemsSpent := t1.gemsSpent + t2.gemsSpent }

/-- Apply one economy operation to the balance table and report what it
contributed to the totals (a removal contributes only when it returned
success, matching the claim's "amounts whose removal returned success"). -/
def applyOp (u s now : Int) (op : EconOp) (tbl : List UserBalance) :
    List UserBalance × Totals :=
  match op with
  | .addCoins a => (add_coins tbl u s a now, { coinsAdded := a })
  | .addGems a => (add_gems tbl u s a now, { gemsAdded := a })
  | .removeCoins a =>
      let r := remove_coins tbl u s a
      (r.2, { coinsSpent := if r.1 then a else 0 })
  | .removeGems a =>
      let r := remove_gems tbl u s a
      (r.2, { gemsSpent := if r.1 then a else 0 })

/-- Run a sequence of economy operations left to right. -/
def runOps (u s now : Int) : List EconOp → List UserBalance →
    List UserBalance × Totals
  | [], tbl => (tbl, {})
  | op :: rest, tbl =>
      let st := applyOp u s now op tbl
      let rst := runOps u s now rest st.1
      (rst.1, st.2.join rst.2)

/-- True when the operation is not an addition of a negative amount. -/
def addOk : EconOp → Bool
  | .addCoins a => 0 ≤ a
  | .addGems a => 0 ≤ a
  | .removeCoins _ => true
  | .removeGems _ => true

/-! ### Helper lemmas about table lookups and updates -/

theorem findBalance_update (tbl : List UserBalance) (u s : Int)
    (f : UserBalance → UserBalance)
    (hf : ∀ b, balKey u s b = true → balKey u s (f b) = true) :
    findBalance (updateBalance tbl u s f) u s = (findBalance tbl u s).map f := by
  induction tbl with
  | nil => rfl
  | cons b rest ih =>
    by_cases hb : balKey u s b = true
    · simp only [findBalance, updateBalance, List.map_cons, if_pos hb] at *
      rw [List.find?_cons_of_pos _ (hf b hb), List.find?_cons_of_pos _ hb]
      rfl
    · simp only [findBalance, updateBalance, List.map_cons, if_neg hb] at *
      rw [List.find?_cons_of_neg _ (by simpa using hb),
          List.find?_cons_of_neg _ (by simpa using hb)]
      exact ih

theorem balKey_freshBalance (u s ld : Int) :
    balKey u s (freshBalance u s ld) = true := by
  simp [balKey, freshBalance]

theorem findBalance_insertOrIgnore (tbl : List UserBalance) (u s ld : Int) :
    findBalance (insertOrIgnoreBalance tbl u s ld) u s =
      some ((findBalance tbl u s).getD (freshBalance u s ld)) := by
  unfold insertOrIgnoreBalance
  cases h : findBalance tbl u s with
  | some b => simp [h]
  | none =>
    simp only [h, Option.isSome_none, Bool.false_eq_true, if_false,
      Option.getD_none]
    unfold findBalance at h ⊢
    rw [List.find?_append, h, Option.none_or,
      List.find?_cons_of_pos _ (balKey_freshBalance u s ld)]

theorem insertOrIgnore_of_found (tbl : List UserBalance) (u s ld : Int)
    (h : (findBalance tbl u s).isSome) :
    insertOrIgnoreBalance tbl u s ld = tbl := by
  simp [insertOrIgnoreBalance, h]

/-- Lookup after `add_coins` when the row already exists. -/
theorem find_add_coins (tbl : List UserBalance) (u s a now : Int)
    (b : UserBalance) (hb : findBalance tbl u s = some b) :
    findBalance (add_coins tbl u s a now) u s =
      some { b with coins := b.coins + a, total_earned := b.total_earned + a } := by
  unfold add_coins
  rw [insertOrIgnore_of_found _ _ _ _ (by simp [hb]),
      findBalance_update _ _ _ _ (fun x hx => by simpa [balKey] using hx), hb]
  rfl

/-- Lookup after `add_gems` when the row already exists. -/
theorem find_add_gems (tbl : List UserBalance) (u s a now : Int)
    (b : UserBalance) (hb : findBalance tbl u s = some b) :
    findBalance (add_gems tbl u s a now) u s =
      some { b with gems := b.gems + a } := by
  unfold add_gems
  rw [insertOrIgnore_of_found _ _ _ _ (by simp [hb]),
      findBalance_update _ _ _ _ (fun x hx => by simpa [balKey] using hx), hb]
  rfl

/-- `remove_coins` on an existing row: both branches. -/
theorem remove_coins_spec (tbl : List UserBalance) (u s a : Int)
    (b : UserBalance) (hb : findBalance tbl u s = some b) :
    (b.coins < a → remove_coins tbl u s a = (false, tbl)) ∧
    (a ≤ b.coins → (remove_coins tbl u s a).1 = true ∧
      findBalance (remove_coins tbl u s a).2 u s =
        some { b with coins := b.coins - a,
                      total_spent := b.total_spent + a }) := by
  constructor
  · intro h
    simp [remove_coins, hb, h]
  · intro h
    have hlt : ¬ b.coins < a := not_lt.mpr h
    constructor
    · simp [remove_coins, hb, hlt]
    · simp only [remove_coins, hb, if_neg hlt]
      rw [findBalance_update _ _ _ _ (fun x hx => by simpa [balKey] using hx), hb]
      rfl

/-- `remove_gems` on an existing row: both branches. -/
theorem remove_gems_spec (tbl : List UserBalance) (u s a : Int)
    (b : UserBalance) (hb : findBalance tbl u s = some b) :
    (b.gems < a → remove_gems tbl u s a = (false, tbl)) ∧
    (a ≤ b.gems → (remove_gems tbl u s a).1 = true ∧
      findBalance (remove_gems tbl u s a).2 u s =
        some { b with gems := b.gems - a }) := by
  constructor
  · intro h
    simp [remove_gems, hb, h]
  · intro h
    have hlt : ¬ b.gems < a := not_lt.mpr h
    constructor
    · simp [remove_gems, hb, hlt]
    · simp only [remove_gems, hb, if_neg hlt]
      rw [findBalance_update _ _ _ _ (fun x hx => by simpa [balKey] using hx), hb]
      rfl

theorem runOps_cons (u s now : Int) (op : EconOp) (rest : List EconOp)
    (tbl : List UserBalance) :
    runOps u s now (op :: rest) tbl =
      ((runOps u s now rest (applyOp u s now op tbl).1).1,
       (applyOp u s now op tbl).2.join
         (runOps u s now rest (applyOp u s now op tbl).1).2) := rfl

/-- Running any sequence of economy operations from a table holding a row
for the pair preserves the row's existence, keeps both balances
non-negative (given non-negative additions), and keeps each balance equal
to its start value plus additions minus successful removals. -/
theorem runOps_invariant (u s now : Int) (ops : List EconOp) :
    ∀ (tbl : List UserBalance) (b : UserBalance),
      findBalance tbl u s = some b →
      (∀ op ∈ ops, addOk op = true) →
      0 ≤ b.coins → 0 ≤ b.gems →
      ∃ b', findBalance (runOps u s now ops tbl).1 u s = some b' ∧
        b'.coins = b.coins + (runOps u s now ops tbl).2.coinsAdded
                    - (runOps u s now ops tbl).2.coinsSpent ∧
        b'.gems = b.gems + (runOps u s now ops tbl).2.gemsAdded
                    - (runOps u s now ops tbl).2.gemsSpent ∧
        0 ≤ b'.coins ∧ 0 ≤ b'.gems := by
  induction ops with
  | nil =>
    intro tbl b hb _ hc hg
    refine ⟨b, hb, ?_, ?_, hc, hg⟩ <;> simp [runOps]
  | cons op rest ih =>
    intro tbl b hb hok hc hg
    have hokr : ∀ o ∈ rest, addOk o = true :=
      fun o ho => hok o (List.mem_cons_of_mem _ ho)
    have hokh : addOk op = true := hok op (List.mem_cons_self _ _)
    rw [runOps_cons]
    cases op with
    | addCoins a =>
      have ha : (0:Int) ≤ a := by simpa [addOk] using hokh
      have hA1 : (applyOp u s now (.addCoins a) tbl).1 = add_coins tbl u s a now := rfl
      have hA2 : (applyOp u s now (.addCoins a) tbl).2 = { coinsAdded := a } := rfl
      rw [hA1, hA2]
      obtain ⟨b', h1, h2, h3, h4, h5⟩ :=
        ih (add_coins tbl u s a now) _ (find_add_coins tbl u s a now b hb)
          hokr (add_nonneg hc ha) hg
      have h2' : b'.coins = b.coins + a
          + (runOps u s now rest (add_coins tbl u s a now)).2.coinsAdded
          - (runOps u s now rest (add_coins tbl u s a now)).2.coinsSpent := h2
      have h3' : b'.gems = b.gems
          + (runOps u s now rest (add_coins tbl u s a now)).2.gemsAdded
          - (runOps u s now rest (add_coins tbl u s a now)).2.gemsSpent := h3
      refine ⟨b', h1, ?_, ?_, h4, h5⟩ <;> simp [Totals.join] <;> omega
    | addGems a =>
      have ha : (0:Int) ≤ a := by simpa [addOk] using hokh
      have hA1 : (applyOp u s now (.addGems a) tbl).1 = add_gems tbl u s a now := rfl
      have hA2 : (applyOp u s now (.addGems a) tbl).2 = { gemsAdded := a } := rfl
      rw [hA1, hA2]
      obtain ⟨b', h1, h2, h3, h4, h5⟩ :=
        ih (add_gems tbl u s a now) _ (find_add_gems tbl u s a now b hb)
          hokr hc (add_nonneg hg ha)
      have h2' : b'.coins = b.coins
          + (runOps u s now rest (add_gems tbl u s a now)).2.coinsAdded
          - (runOps u s now rest (add_gems tbl u s a now)).2.coinsSpent := h2
      have h3' : b'.gems = b.gems + a
          + (runOps u s now rest (add_gems tbl u s a now)).2.gemsAdded
          - (runOps u s now rest (add_gems tbl u s a now)).2.gemsSpent := h3
      refine ⟨b', h1, ?_, ?_, h4, h5⟩ <;> simp [Totals.join] <;> omega
    | removeCoins a =>
      by_cases hlt : b.coins < a
      · have heq : remove_coins tbl u s a = (false, tbl) :=
          (remove_coins_spec tbl u s a b hb).1 hlt
        have hA1 : (applyOp u s now (.removeCoins a) tbl).1 = tbl := by
          simp [applyOp, heq]
        have hA2 : (applyOp u s now (.removeCoins a) tbl).2 = {} := by
          simp [applyOp, heq]
        rw [hA1, hA2]
        obtain ⟨b', h1, h2, h3, h4, h5⟩ := ih tbl b hb hokr hc hg
        refine ⟨b', h1, ?_, ?_, h4, h5⟩ <;> simp [Totals.join] <;> omega
      · have hle : a ≤ b.coins := not_lt.mp hlt
        obtain ⟨hres, hfind⟩ := (remove_coins_spec tbl u s a b hb).2 hle
        have hA1 : (applyOp u s now (.removeCoins a) tbl).1 =
            (remove_coins tbl u s a).2 := rfl
        have hA2 : (applyOp u s now (.removeCoins a) tbl).2 = { coinsSpent := a } := by
          simp [applyOp, hres]
        rw [hA1, hA2]
        obtain ⟨b', h1, h2, h3, h4, h5⟩ :=
          ih (remove_coins tbl u s a).2 _ hfind hokr (sub_nonneg.mpr hle) hg
        have h2' : b'.coins = b.coins - a
            + (runOps u s now rest (remove_coins tbl u s a).2).2.coinsAdded
            - (runOps u s now rest (remove_coins tbl u s a).2).2.coinsSpent := h2
        have h3' : b'.gems = b.gems
            + (runOps u s now rest (remove_coins tbl u s a).2).2.gemsAdded
            - (runOps u s now rest (remove_coins tbl u s a).2).2.gemsSpent := h3
        refine ⟨b', h1, ?_, ?_, h4, h5⟩ <;> simp [Totals.join] <;> omega
    | removeGems a =>
      by_cases hlt : b.gems < a
      · have heq : remove_gems tbl u s a = (false, tbl) :=
          (remove_gems_spec tbl u s a b hb).1 hlt
        have hA1 : (applyOp u s now (.removeGems a) tbl).1 = tbl := by
          simp [applyOp, heq]
        have hA2 : (applyOp u s now (.removeGems a) tbl).2 = {} := by
          simp [applyOp, heq]
        rw [hA1, hA2]
        obtain ⟨b', h1, h2, h3, h4, h5⟩ := ih tbl b hb hokr hc hg
        refine ⟨b', h1, ?_, ?_, h4, h5⟩ <;> simp [Totals.join] <;> omega
      · have hle : a ≤ b.gems := not_lt.mp hlt
        obtain ⟨hres, hfind⟩ := (remove_gems_spec tbl u s a b hb).2 hle
        have hA1 : (applyOp u s now (.removeGems a) tbl).1 =
            (remove_gems tbl u s a).2 := rfl
        have hA2 : (applyOp u s now (.removeGems a) tbl).2 = { gemsSpent := a } := by
          simp [applyOp, hres]
        rw [hA1, hA2]
        obtain ⟨b', h1, h2, h3, h4, h5⟩ :=
          ih (remove_gems tbl u s a).2 _ hfind hokr hc (sub_nonneg.mpr hle)
        have h2' : b'.coins = b.coins
            + (runOps u s now rest (remove_gems tbl u s a).2).2.coinsAdded
            - (runOps u s now rest (remove_gems tbl u s a).2).2.coinsSpent := h2
        have h3' : b'.gems = b.gems - a
            + (runOps u s now rest (remove_gems tbl u s a).2).2.gemsAdded
            - (runOps u s now rest (remove_gems tbl u s a).2).2.gemsSpent := h3
        refine ⟨b', h1, ?_, ?_, h4, h5⟩ <;> simp [Totals.join] <;> omega

/-! ### Claim theorems -/

/-- Balance row used in concrete economy scenarios: coins = 50, gems = 40,
all counters zero. -/
def wBal : UserBalance :=
  { user_id := 1, server_id := 2, coins := 50, gems := 40, last_daily := 0 }

/-- C1 counterexample: `remove_gems` on a row with 40 gems and
`total_spent = 0`, removing 30, returns success and decrements gems, but
leaves `total_spent` at 0 — the claim demands it become 0 + 30. -/
theorem C1_counterexample :
    (remove_gems [wBal] 1 2 30).1 = true ∧
    (findBalance (remove_gems [wBal] 1 2 30).2 1 2).map UserBalance.gems =
      some 10 ∧
    (findBalance (remove_gems [wBal] 1 2 30).2 1 2).map UserBalance.total_spent =
      some 0 ∧
    (0 : Int) ≠ 0 + 30 := by decide

/-- C1 (amended): on an existing balance row, `remove_coins` fails and
leaves the table unchanged when `coins < amount`, and otherwise succeeds,
decrementing coins and incrementing `total_spent` by the amount;
`remove_gems` behaves the same on the gems column except that it leaves
`total_spent` (and every other column) untouched on success. -/
theorem C1_removeCurrency (tbl : List UserBalance) (u s amount : Int)
    (b : UserBalance) (hb : findBalance tbl u s = some b) :
    (b.coins < amount → remove_coins tbl u s amount = (false, tbl)) ∧
    (amount ≤ b.coins → (remove_coins tbl u s amount).1 = true ∧
      findBalance (remove_coins tbl u s amount).2 u s =
        some { b with coins := b.coins - amount,
                      total_spent := b.total_spent + amount }) ∧
    (b.gems < amount → remove_gems tbl u s amount = (false, tbl)) ∧
    (amount ≤ b.gems → (remove_gems tbl u s amount).1 = true ∧
      findBalance (remove_gems tbl u s amount).2 u s =
        some { b with gems := b.gems - amount }) :=
  ⟨(remove_coins_spec tbl u s amount b hb).1,
   (remove_coins_spec tbl u s amount b hb).2,
   (remove_gems_spec tbl u s amount b hb).1,
   (remove_gems_spec tbl u s amount b hb).2⟩

/-- C1 witness: concrete run of both branches of `remove_coins` on a row
with 50 coins. -/
theorem C1_removeCurrency_witness :
    remove_coins [wBal] 1 2 80 = (false, [wBal]) ∧
    (remove_coins [wBal] 1 2 30).1 = true ∧
    findBalance (remove_coins [wBal] 1 2 30).2 1 2 =
      some { wBal with coins := wBal.coins - 30,
                       total_spent := wBal.total_spent + 30 } :=
  ⟨(C1_removeCurrency [wBal] 1 2 80 wBal rfl).1 (by decide),
   ((C1_removeCurrency [wBal] 1 2 30 wBal rfl).2.1 (by decide)).1,
   ((C1_removeCurrency [wBal] 1 2 30 wBal rfl).2.1 (by decide)).2⟩

/-- C2 counterexample: a single `add_coins` of −5 applied to a fresh
balance row leaves the stored coins at −5, violating the claimed
non-negativity (the code never rejects negative additions). -/
theorem C2_counterexample :
    (findBalance (runOps 1 1 86400 [EconOp.addCoins (-5)]
        (create_user_balance [] 1 1 0).2).1 1 1).map UserBalance.coins =
      some (-5) ∧
    ¬ (0 : Int) ≤ -5 := by decide

/-- C2 (amended): for every sequence of economy operations on one
(user, server) pair starting from a fresh balance row, provided every
added amount is non-negative (the code does not validate this itself),
the stored balance of each currency equals the sum of the added amounts
minus the sum of the amounts whose removal returned success, and both
balances are non-negative.  Since every initial segment of such a
sequence is itself such a sequence, this also gives non-negativity after
each individual call. -/
theorem C2_ledger_invariant (u s now0 now : Int) (ops : List EconOp)
    (hok : ∀ op ∈ ops, addOk op = true) :
    ∃ b', findBalance
        (runOps u s now ops (create_user_balance [] u s now0).2).1 u s =
          some b' ∧
      b'.coins =
        (runOps u s now ops (create_user_balance [] u s now0).2).2.coinsAdded
        - (runOps u s now ops (create_user_balance [] u s now0).2).2.coinsSpent ∧
      b'.gems =
        (runOps u s now ops (create_user_balance [] u s now0).2).2.gemsAdded
        - (runOps u s now ops (create_user_balance [] u s now0).2).2.gemsSpent ∧
      0 ≤ b'.coins ∧ 0 ≤ b'.gems := by
  have hb : findBalance (create_user_balance [] u s now0).2 u s
      = some (freshBalance u s (now0 - 86400)) := by
    show findBalance (insertOrIgnoreBalance [] u s (now0 - 86400)) u s = _
    rw [findBalance_insertOrIgnore]
    rfl
  obtain ⟨b', h1, h2, h3, h4, h5⟩ :=
    runOps_invariant u s now ops _ _ hb hok (le_refl 0) (le_refl 0)
  have h2' : b'.coins = 0
      + (runOps u s now ops (create_user_balance [] u s now0).2).2.coinsAdded
      - (runOps u s now ops (create_user_balance [] u s now0).2).2.coinsSpent := h2
  have h3' : b'.gems = 0
      + (runOps u s now ops (create_user_balance [] u s now0).2).2.gemsAdded
      - (runOps u s now ops (create_user_balance [] u s now0).2).2.gemsSpent := h3
  exact ⟨b', h1, by omega, by omega, h4, h5⟩

/-- C2 witness: a concrete mixed sequence (add 30 coins, remove 10 coins,
add 5 gems, attempt to remove 9 gems) run from a fresh row. -/
theorem C2_ledger_invariant_witness :
    ∃ b', findBalance
        (runOps 1 1 500000 [EconOp.addCoins 30, EconOp.removeCoins 10,
          EconOp.addGems 5, EconOp.removeGems 9]
          (create_user_balance [] 1 1 0).2).1 1 1 = some b' ∧
      b'.coins =
        (runOps 1 1 500000 [EconOp.addCoins 30, EconOp.removeCoins 10,
          EconOp.addGems 5, EconOp.removeGems 9]
          (create_user_balance [] 1 1 0).2).2.coinsAdded
        - (runOps 1 1 500000 [EconOp.addCoins 30, EconOp.removeCoins 10,
          EconOp.addGems 5, EconOp.removeGems 9]
          (create_user_balance [] 1 1 0).2).2.coinsSpent ∧
      b'.gems =
        (runOps 1 1 500000 [EconOp.addCoins 30, EconOp.removeCoins 10,
          EconOp.addGems 5, EconOp.removeGems 9]
          (create_user_balance [] 1 1 0).2).2.gemsAdded
        - (runOps 1 1 500000 [EconOp.addCoins 30, EconOp.removeCoins 10,
          EconOp.addGems 5, EconOp.removeGems 9]
          (create_user_balance [] 1 1 0).2).2.gemsSpent ∧
      0 ≤ b'.coins ∧ 0 ≤ b'.gems :=
  C2_ledger_invariant 1 1 0 500000
    [EconOp.addCoins 30, EconOp.removeCoins 10,
     EconOp.addGems 5, EconOp.removeGems 9] (by decide)

/-- C10: removing either currency for a pair with no balance row returns
the plain failure flag and leaves the whole table unchanged — no row is
created and nothing else is written. -/
theorem C10_remove_missing_row (tbl : List UserBalance) (u s a : Int)
    (h : findBalance tbl u s = none) :
    remove_coins tbl u s a = (false, tbl) ∧
    remove_gems tbl u s a = (false, tbl) := by
  constructor <;> simp [remove_coins, remove_gems, h]

/-- C10 witness: removal from the empty table. -/
theorem C10_remove_missing_row_witness :
    remove_coins [] 1 2 5 = (false, []) ∧ remove_gems [] 1 2 5 = (false, []) :=
  C10_remove_missing_row [] 1 2 5 rfl

/-- C3: on an existing balance row, `claim_daily_reward` rejects and leaves
everything unchanged when under 24 h (86400 s) elapsed since `last_daily`;
succeeds with the streak incremented when the elapsed time is in
[24 h, 48 h); succeeds with the streak reset to 1 when 48 h or more
elapsed; and on every success credits `reward` coins, adds `reward` to
`total_earned`, and sets `last_daily` to the current time. -/
theorem C3_claim_daily (tbl : List UserBalance) (u s reward now : Int)
    (b : UserBalance) (hb : findBalance tbl u s = some b) :
    (now - b.last_daily < 86400 →
      claim_daily_reward tbl u s reward now = ((false, b.daily_streak), tbl)) ∧
    (86400 ≤ now - b.last_daily → now - b.last_daily < 172800 →
      (claim_daily_reward tbl u s reward now).1 = (true, b.daily_streak + 1) ∧
      findBalance (claim_daily_reward tbl u s reward now).2 u s =
        some { b with coins := b.coins + reward,
                      daily_streak := b.daily_streak + 1, last_daily := now,
                      total_earned := b.total_earned + reward }) ∧
    (172800 ≤ now - b.last_daily →
      (claim_daily_reward tbl u s reward now).1 = (true, 1) ∧
      findBalance (claim_daily_reward tbl u s reward now).2 u s =
        some { b with coins := b.coins + reward, daily_streak := 1,
                      last_daily := now,
                      total_earned := b.total_earned + reward }) := by
  refine ⟨?_, ?_, ?_⟩
  · intro h
    simp [claim_daily_reward, hb, h]
  · intro h1 h2
    have hn : ¬ now - b.last_daily < 86400 := not_lt.mpr h1
    constructor
    · simp [claim_daily_reward, hb, hn, h2]
    · simp only [claim_daily_reward, hb, if_neg hn, if_pos h2]
      rw [findBalance_update _ _ _ _ (fun x hx => by simpa [balKey] using hx), hb]
      rfl
  · intro h1
    have hn : ¬ now - b.last_daily < 86400 := by omega
    have hn2 : ¬ now - b.last_daily < 172800 := not_lt.mpr h1
    constructor
    · simp [claim_daily_reward, hb, hn, hn2]
    · simp only [claim_daily_reward, hb, if_neg hn, if_neg hn2]
      rw [findBalance_update _ _ _ _ (fun x hx => by simpa [balKey] using hx), hb]
      rfl

/-- Balance row used in the daily-reward scenario: streak 3, last claim at
time 0. -/
def dBal : UserBalance :=
  { user_id := 3, server_id := 4, coins := 10, daily_streak := 3,
    last_daily := 0, total_earned := 7 }

/-- C3 witness: a claim 25 h after the last one succeeds with streak 4 and
credits the reward. -/
theorem C3_claim_daily_witness :
    (claim_daily_reward [dBal] 3 4 100 90000).1 = (true, 4) ∧
    findBalance (claim_daily_reward [dBal] 3 4 100 90000).2 3 4 =
      some { dBal with coins := 110, daily_streak := 4, last_daily := 90000,
                       total_earned := 107 } := by
  have h := (C3_claim_daily [dBal] 3 4 100 90000 dBal rfl).2.1
    (by decide) (by decide)
  exact ⟨by rw [h.1]; decide, by rw [h.2]; decide⟩

/-- Balance row used in the gem-addition scenarios. -/
def gBal : UserBalance :=
  { user_id := 1, server_id := 2, gems := 1, last_daily := 0 }

/-- C4 counterexample: `add_gems` of 7 increments the gems balance but
leaves `total_earned` at 0, whereas the claim demands that the running
`total_earned` counter also be incremented to 0 + 7. -/
theorem C4_counterexample :
    (findBalance (add_gems [gBal] 1 2 7 86400) 1 2).map UserBalance.gems =
      some 8 ∧
    (findBalance (add_gems [gBal] 1 2 7 86400) 1 2).map
        UserBalance.total_earned = some 0 ∧
    (0 : Int) ≠ 0 + 7 := by decide

/-- C4 (amended): `add_coins` first ensures a balance row exists
(insert-or-ignore, with `last_daily` defaulted to one day before now) and
then increments both `coins` and `total_earned` by the amount; `add_gems`
ensures the row exists the same way but increments only `gems`, leaving
`total_earned` unchanged. -/
theorem C4_addCurrency (tbl : List UserBalance) (u s a now : Int) :
    findBalance (add_coins tbl u s a now) u s =
      some (let b0 := (findBalance tbl u s).getD (freshBalance u s (now - 86400))
            { b0 with coins := b0.coins + a,
                      total_earned := b0.total_earned + a }) ∧
    findBalance (add_gems tbl u s a now) u s =
      some (let b0 := (findBalance tbl u s).getD (freshBalance u s (now - 86400))
            { b0 with gems := b0.gems + a }) := by
  constructor
  · show findBalance (updateBalance (insertOrIgnoreBalance tbl u s (now - 86400))
      u s _) u s = _
    rw [findBalance_update _ _ _ _ (fun x hx => by simpa [balKey] using hx),
        findBalance_insertOrIgnore]
    rfl
  · show findBalance (updateBalance (insertOrIgnoreBalance tbl u s (now - 86400))
      u s _) u s = _
    rw [findBalance_update _ _ _ _ (fun x hx => by simpa [balKey] using hx),
        findBalance_insertOrIgnore]
    rfl

/-- Balance row used in the negative-addition scenario. -/
def nBal : UserBalance :=
  { user_id := 1, server_id := 2, coins := 10, last_daily := 0 }

/-- C5 counterexample: the claim says a negative amount is rejected and
leaves the row unchanged, but `add_coins` of −5 on a row with 10 coins
stores 5 coins (and −5 total_earned). -/
theorem C5_counterexample :
    (findBalance (add_coins [nBal] 1 2 (-5) 86400) 1 2).map UserBalance.coins =
      some 5 ∧
    (findBalance (add_coins [nBal] 1 2 (-5) 86400) 1 2).map
        UserBalance.total_earned = some (-5) ∧
    (5 : Int) ≠ 10 := by decide

/-- C5 (amended): `add_coins` and `add_gems` accept an amount of zero
(leaving the stored row unchanged in value), but they perform no sign
check at all: a negative amount is applied like any other, decrementing
the balance (and, for coins, `total_earned`) by its magnitude. -/
theorem C5_add_any_amount (tbl : List UserBalance) (u s a now : Int)
    (b : UserBalance) (hb : findBalance tbl u s = some b) :
    findBalance (add_coins tbl u s a now) u s =
      some { b with coins := b.coins + a,
                    total_earned := b.total_earned + a } ∧
    findBalance (add_gems tbl u s a now) u s =
      some { b with gems := b.gems + a } ∧
    findBalance (add_coins tbl u s 0 now) u s = some b ∧
    findBalance (add_gems tbl u s 0 now) u s = some b := by
  refine ⟨find_add_coins tbl u s a now b hb,
          find_add_gems tbl u s a now b hb, ?_, ?_⟩
  · rw [find_add_coins tbl u s 0 now b hb]
    congr 1
    cases b
    simp
  · rw [find_add_gems tbl u s 0 now b hb]
    congr 1
    cases b
    simp

/-- C5 witness: adding −5 coins and adding 0 coins to a concrete row. -/
theorem C5_add_any_amount_witness :
    findBalance (add_coins [nBal] 1 2 (-5) 86400) 1 2 =
      some { nBal with coins := nBal.coins + -5,
                       total_earned := nBal.total_earned + -5 } ∧
    findBalance (add_coins [nBal] 1 2 0 86400) 1 2 = some nBal := by
  have h := C5_add_any_amount [nBal] 1 2 (-5) 86400 nBal rfl
  exact ⟨h.1, h.2.2.1⟩

/-- Active, already-expired mute for pair (1, 2): expired at time 10. -/
def mOld : MuteRow :=
  { server_id := 1, user_id := 2, moderator_id := 3, reason := "spam",
    duration := 1, mute_time := 0, expire_time := 10 }

/-- Active mute for pair (1, 2) expiring at time 100. -/
def m100 : MuteRow :=
  { server_id := 1, user_id := 2, moderator_id := 3, reason := "spam",
    duration := 1, mute_time := 0, expire_time := 100 }

/-- C6 counterexample, two scenarios.  First: at the exact expiry instant
(`now = expires_at`) the check still reports muted, although no row
satisfies the claim's `now < expires_at`.  Second: with two active rows
for the pair — the first expired, the second not — the check reports
not-muted although a row with `active` and `now < expires_at` exists,
because only the first active row is consulted. -/
theorem C6_counterexample :
    (is_user_muted [m100] 1 2 100 = true ∧
      ¬ ∃ r ∈ [m100], r.active = true ∧ (100 : Int) < r.expire_time) ∧
    (is_user_muted [mOld, m100] 1 2 50 = false ∧
      ∃ r ∈ [mOld, m100], r.active = true ∧ (50 : Int) < r.expire_time) := by
  decide

/-- C6 (amended): `is_user_muted` (resp. `is_user_banned`) returns true
iff the first row for the pair with `active = true`, in storage order,
exists and satisfies `now ≤ expires_at` (the bound is inclusive, and rows
after the first active one are never consulted).  The check performs no
write, which the embedding reflects by returning only a `Bool`. -/
theorem C6_lazy_expiry (mutes : List MuteRow) (bans : List BanRow)
    (s u now : Int) :
    (is_user_muted mutes s u now = true ↔
      ∃ r, mutes.find? (muteKey s u) = some r ∧ now ≤ r.expire_time) ∧
    (is_user_banned bans s u now = true ↔
      ∃ r, bans.find? (banKey s u) = some r ∧ now ≤ r.expire_time) := by
  constructor
  · unfold is_user_muted
    cases h : mutes.find? (muteKey s u) with
    | none => simp
    | some r =>
      by_cases hgt : now > r.expire_time
      · have hn : ¬ now ≤ r.expire_time := by omega
        simp [hgt, hn]
      · have hle : now ≤ r.expire_time := by omega
        simp [hgt, hle]
  · unfold is_user_banned
    cases h : bans.find? (banKey s u) with
    | none => simp
    | some r =>
      by_cases hgt : now > r.expire_time
      · have hn : ¬ now ≤ r.expire_time := by omega
        simp [hgt, hn]
      · have hle : now ≤ r.expire_time := by omega
        simp [hgt, hle]

/-- C7 counterexample: a ban issued at time 1000 with the explicit
duration 0 minutes stores `expire_time = 1000 + 36500 days`, not the
`issued_at + duration` = 1000 the claim requires, because the Python
guard `if duration:` treats 0 like an absent duration. -/
theorem C7_counterexample :
    (ban_user [] [] 1 2 3 "raid" (some 0) 1000).1.map BanRow.expire_time =
      [3153601000] ∧
    (3153601000 : Int) ≠ 1000 + 0 * 60 := by decide

/-- C7 (amended): a mute always stores
`expires_at = issued_at + duration * 60` (the duration argument is
mandatory, so no permanent-mute case exists); a ban stores
`expires_at = issued_at + duration * 60` when the duration is provided
and nonzero, and `issued_at + 36500 days` (the permanent marker) when the
duration is absent or zero. -/
theorem C7_expiry (mutes : List MuteRow) (bans : List BanRow)
    (mods mods2 : List ModerationRecord) (s u m : Int) (reason : String)
    (d : Int) (dOpt : Option Int) (now : Int) :
    (∃ r, (mute_user mutes mods s u m reason d now).1 = mutes ++ [r] ∧
      r.mute_time = now ∧ r.expire_time = now + d * 60 ∧ r.active = true) ∧
    (∃ r, (ban_user bans mods2 s u m reason dOpt now).1 = bans ++ [r] ∧
      r.ban_time = now ∧ r.active = true ∧
      r.expire_time = (match dOpt with
        | some dd => if dd = 0 then now + 36500 * 86400 else now + dd * 60
        | none => now + 36500 * 86400)) := by
  constructor
  · exact ⟨_, rfl, rfl, rfl, rfl⟩
  · refine ⟨_, rfl, rfl, rfl, ?_⟩
    cases dOpt with
    | none => rfl
    | some dd =>
      by_cases hd : dd = 0
      · simp [ban_user, hd]
      · have hb : (dd == 0) = false := by
          simpa using hd
        simp [ban_user, hb, hd]

/-- User row used in the create-user scenario. -/
def aliceRow : User :=
  { user_id := 1, username := "alice", join_date := 0, last_activity := 0 }

/-- C8 counterexample: if a row for user 1 already exists with username
"alice", `create_user 1 "bob"` indeed changes no stored state, but it
returns a freshly built user carrying the *new* username "bob" — not the
existing state the claim promises. -/
theorem C8_counterexample :
    (create_user [aliceRow] 1 "bob" 50).2 = [aliceRow] ∧
    (create_user [aliceRow] 1 "bob" 50).1.username = "bob" ∧
    "bob" ≠ "alice" := by decide

/-- C8 (amended): `create_user` never overwrites stored state — when a row
with the user id exists, the table is returned unchanged (the existing
row, its username and timestamps included, is still what a lookup
returns), and when none exists a fresh row with the given id and username
is inserted; but the call always returns the freshly constructed user
object, not the stored state. -/
theorem C8_create_user (tbl : List User) (uid : Int) (uname : String)
    (now : Int) :
    (create_user tbl uid uname now).1 = freshUser uid uname now ∧
    (create_user tbl uid uname now).2 =
      (if (tbl.find? (fun r => r.user_id == uid)).isSome then tbl
       else tbl ++ [freshUser uid uname now]) ∧
    (create_user tbl uid uname now).2.find? (fun r => r.user_id == uid) =
      (if (tbl.find? (fun r => r.user_id == uid)).isSome
       then tbl.find? (fun r => r.user_id == uid)
       else some (freshUser uid uname now)) := by
  by_cases h : (tbl.find? (fun r => r.user_id == uid)).isSome
  · refine ⟨by unfold create_user; split <;> rfl, ?_, ?_⟩
    · simp [create_user, h]
    · simp [create_user, h]
  · have hn : tbl.find? (fun r => r.user_id == uid) = none :=
      Option.not_isSome_iff_eq_none.mp h
    refine ⟨by unfold create_user; split <;> rfl, ?_, ?_⟩
    · simp [create_user, h]
    · simp only [create_user, h, Bool.false_eq_true, if_false]
      rw [List.find?_append, hn, Option.none_or,
        List.find?_cons_of_pos _ (by simp [freshUser])]

/-- Sweeping twice at the same instant changes nothing the second time. -/
theorem cleanup_mutes_idem (mutes : List MuteRow) (now : Int) :
    cleanup_expired_mutes (cleanup_expired_mutes mutes now) now =
      cleanup_expired_mutes mutes now := by
  induction mutes with
  | nil => rfl
  | cons r rest ih =>
    simp only [cleanup_expired_mutes, List.map_cons] at *
    rw [List.cons.injEq]
    refine ⟨?_, ih⟩
    by_cases h1 : r.expire_time < now
    · cases h2 : r.active
      · simp [h1, h2]
      · simp [h1, h2]
    · simp [h1]

/-- After a sweep no row is both active and expired. -/
theorem cleanup_mutes_no_active_expired (mutes : List MuteRow) (now : Int) :
    ∀ r ∈ cleanup_expired_mutes mutes now, r.active = true →
      ¬ r.expire_time < now := by
  intro r hr hact
  unfold cleanup_expired_mutes at hr
  obtain ⟨r0, _, heq⟩ := List.mem_map.mp hr
  by_cases hc : (r0.expire_time < now && r0.active) = true
  · rw [if_pos hc] at heq
    rw [← heq] at hact
    simp at hact
  · rw [if_neg hc] at heq
    subst heq
    simp only [Bool.and_eq_true, decide_eq_true_eq, not_and] at hc
    intro hexp
    exact hc hexp hact

/-- If every active row of the pair is expired, the pair is reported
not-muted after the sweep. -/
theorem is_muted_after_sweep (mutes : List MuteRow) (s u now : Int)
    (h : ∀ r ∈ mutes, muteKey s u r = true → r.expire_time < now) :
    is_user_muted (cleanup_expired_mutes mutes now) s u now = false := by
  unfold is_user_muted
  have hnone : (cleanup_expired_mutes mutes now).find? (muteKey s u) = none := by
    rw [List.find?_eq_none]
    intro x hx hkey
    obtain ⟨r0, hr0, heq⟩ := List.mem_map.mp hx
    by_cases hc : (r0.expire_time < now && r0.active) = true
    · rw [if_pos hc] at heq
      rw [← heq] at hkey
      simp [muteKey] at hkey
    · rw [if_neg hc] at heq
      subst heq
      have hact : r0.active = true := by
        simp only [muteKey, Bool.and_eq_true] at hkey
        exact hkey.2
      have hexp := h r0 hr0 hkey
      simp [hexp, hact] at hc
  rw [hnone]

/-- Ban analogue of `cleanup_mutes_idem`. -/
theorem cleanup_bans_idem (bans : List BanRow) (now : Int) :
    cleanup_expired_bans (cleanup_expired_bans bans now) now =
      cleanup_expired_bans bans now := by
  induction bans with
  | nil => rfl
  | cons r rest ih =>
    simp only [cleanup_expired_bans, List.map_cons] at *
    rw [List.cons.injEq]
    refine ⟨?_, ih⟩
    by_cases h1 : r.expire_time < now
    · cases h2 : r.active
      · simp [h1, h2]
      · simp [h1, h2]
    · simp [h1]

/-- Ban analogue of `cleanup_mutes_no_active_expired`. -/
theorem cleanup_bans_no_active_expired (bans : List BanRow) (now : Int) :
    ∀ r ∈ cleanup_expired_bans bans now, r.active = true →
      ¬ r.expire_time < now := by
  intro r hr hact
  unfold cleanup_expired_bans at hr
  obtain ⟨r0, _, heq⟩ := List.mem_map.mp hr
  by_cases hc : (r0.expire_time < now && r0.active) = true
  · rw [if_pos hc] at heq
    rw [← heq] at hact
    simp at hact
  · rw [if_neg hc] at heq
    subst heq
    simp only [Bool.and_eq_true, decide_eq_true_eq, not_and] at hc
    intro hexp
    exact hc hexp hact

/-- Ban analogue of `is_muted_after_sweep`. -/
theorem is_banned_after_sweep (bans : List BanRow) (s u now : Int)
    (h : ∀ r ∈ bans, banKey s u r = true → r.expire_time < now) :
    is_user_banned (cleanup_expired_bans bans now) s u now = false := by
  unfold is_user_banned
  have hnone : (cleanup_expired_bans bans now).find? (banKey s u) = none := by
    rw [List.find?_eq_none]
    intro x hx hkey
    obtain ⟨r0, hr0, heq⟩ := List.mem_map.mp hx
    by_cases hc : (r0.expire_time < now && r0.active) = true
    · rw [if_pos hc] at heq
      rw [← heq] at hkey
      simp [banKey] at hkey
    · rw [if_neg hc] at heq
      subst heq
      have hact : r0.active = true := by
        simp only [banKey, Bool.and_eq_true] at hkey
        exact hkey.2
      have hexp := h r0 hr0 hkey
      simp [hexp, hact] at hc
  rw [hnone]

/-- C9 counterexample: with two active mutes for the pair — the first
expired, the second live — the sweep deactivates the first row, and the
post-sweep check reports *muted*, not the "still returns false" the claim
states (before the sweep the check reported not-muted, because only the
first active row was consulted). -/
theorem C9_counterexample :
    cleanup_expired_mutes [mOld, m100] 50 =
      [{ mOld with active := false }, m100] ∧
    is_user_muted [mOld, m100] 1 2 50 = false ∧
    is_user_muted (cleanup_expired_mutes [mOld, m100] 50) 1 2 50 = true := by
  decide

/-- C9 (amended): the sweepers deactivate every expired active row (after
a sweep no row is both active and expired), are idempotent — an immediate
second sweep changes no row — and a pair *all* of whose active rows were
expired (hence swept) is reported not-muted / not-banned afterwards.  (If
the pair also had a live active row behind an expired one, the post-sweep
check can instead switch from false to true; see the counterexample.) -/
theorem C9_sweep (mutes : List MuteRow) (bans : List BanRow)
    (s u now : Int) :
    cleanup_expired_mutes (cleanup_expired_mutes mutes now) now =
      cleanup_expired_mutes mutes now ∧
    (∀ r ∈ cleanup_expired_mutes mutes now, r.active = true →
      ¬ r.expire_time < now) ∧
    ((∀ r ∈ mutes, muteKey s u r = true → r.expire_time < now) →
      is_user_muted (cleanup_expired_mutes mutes now) s u now = false) ∧
    cleanup_expired_bans (cleanup_expired_bans bans now) now =
      cleanup_expired_bans bans now ∧
    (∀ r ∈ cleanup_expired_bans bans now, r.active = true →
      ¬ r.expire_time < now) ∧
    ((∀ r ∈ bans, banKey s u r = true → r.expire_time < now) →
      is_user_banned (cleanup_expired_bans bans now) s u now = false) :=
  ⟨cleanup_mutes_idem mutes now, cleanup_mutes_no_active_expired mutes now,
   is_muted_after_sweep mutes s u now, cleanup_bans_idem bans now,
   cleanup_bans_no_active_expired bans now, is_banned_after_sweep bans s u now⟩

/-- C9 witness: sweeping a single expired mute at time 50 — the second
sweep is a no-op and the pair is reported not-muted afterwards. -/
theorem C9_sweep_witness :
    cleanup_expired_mutes (cleanup_expired_mutes [mOld] 50) 50 =
      cleanup_expired_mutes [mOld] 50 ∧
    is_user_muted (cleanup_expired_mutes [mOld] 50) 1 2 50 = false :=
  ⟨(C9_sweep [mOld] [] 1 2 50).1,
   (C9_sweep [mOld] [] 1 2 50).2.2.1 (by decide)⟩

end Zolory
